import Mathlib

/-!
Verification of the pymyx execution engine (treatment runner, parameter
validator, time-window / incremental resolver, input-view builder, output
reconciler and flow composer) against its natural-language specification.

The Python sources are shallowly embedded:
* Python `datetime` values become `DT` (seconds since the Unix epoch as an
  `Int`, plus an awareness flag).  The code only manipulates UTC or naive
  datetimes, so wall-clock arithmetic (`replace(minute=0, ...)`) is hour
  flooring on the seconds; Python raises `TypeError` on naive/aware
  comparisons, the model compares instants (treating naive values as UTC,
  which is the runner's convention).
* Python `date` values become `PDate`; `date.fromisoformat` validity is
  `tokenToDate` (year 1-9999, month 1-12, day bounded by the month length
  with Gregorian leap years).
* regex `(\d{4}-\d{2}-\d{2})` search over a filename becomes
  `findDateToken`, a leftmost scan for the fixed-shape digit pattern
  (ASCII digits; the engine's filenames are ASCII).
* fallible Python code returns `Except`; raising `ValueError` from
  `date.fromisoformat` is `.error "ValueError"`.
* Python dicts become association lists with first-key-wins lookup
  (`alookup`); a real dict has unique keys, stated as a hypothesis where
  it matters.
-/

/-- Association-list lookup, first matching key wins (Python dict lookup on
a list of key/value pairs in insertion order). -/
def alookup {α : Type} : List (String × α) → String → Option α
  | [], _ => none
  | (k, v) :: rest, key => if k == key then some v else alookup rest key

/-- Python `d[k] = v`: overwrite in place when the key exists, else append. -/
def dictSet {α : Type} (l : List (String × α)) (k : String) (v : α) :
    List (String × α) :=
  if (alookup l k).isSome then
    l.map (fun kv => if kv.1 == k then (k, v) else kv)
  else l ++ [(k, v)]

/-- Python `d.update(u)`: overwrite the keys of `u` in `d`, append new ones. -/
def dictUpdate {α : Type} (d u : List (String × α)) : List (String × α) :=
  (d.map (fun kv =>
    match alookup u kv.1 with
    | some v => (kv.1, v)
    | none => kv)) ++ u.filter (fun kv => (alookup d kv.1).isNone)

/-- Python `s.startswith(pre)` (stated over the character lists so that
concrete instances evaluate inside the kernel). -/
def pyStartsWith (s pre : String) : Bool := List.isPrefixOf pre.toList s.toList

/-- Python `s.endswith(suf)` / `Path.suffix` membership tests. -/
def pyEndsWith (s suf : String) : Bool := List.isSuffixOf suf.toList s.toList

/-- A calendar date (`datetime.date`). -/
structure PDate where
  year : Nat
  month : Nat
  day : Nat
deriving DecidableEq

/-- Python date `<` (lexicographic on year, month, day). -/
def dateLt (a b : PDate) : Bool :=
  a.year < b.year ||
    (a.year == b.year &&
      (a.month < b.month || (a.month == b.month && a.day < b.day)))

/-- Python date `<=`. -/
def dateLe (a b : PDate) : Bool := dateLt a b || a == b

/-- A Python `datetime`: seconds since the Unix epoch and whether the value
is timezone-aware (the code only produces naive or UTC datetimes). -/
structure DT where
  sec : Int
  aware : Bool
deriving DecidableEq

/-- Days since 1970-01-01 of a civil date (Gregorian, proleptic). -/
def daysFromCivil (y m d : Int) : Int :=
  let y := if m ≤ 2 then y - 1 else y
  let era := Int.fdiv y 400
  let yoe := y - era * 400
  let mp := Int.emod (m + 9) 12
  let doy := (153 * mp + 2) / 5 + d - 1
  let doe := yoe * 365 + yoe / 4 - yoe / 100 + doy
  era * 146097 + doe - 719468

/-- Civil date of a day count since 1970-01-01 (inverse of `daysFromCivil`). -/
def civilFromDays (z : Int) : Int × Int × Int :=
  let z := z + 719468
  let era := Int.fdiv z 146097
  let doe := z - era * 146097
  let yoe := (doe - doe / 1460 + doe / 36524 - doe / 146096) / 365
  let y := yoe + era * 400
  let doy := doe - (365 * yoe + yoe / 4 - yoe / 100)
  let mp := (5 * doy + 2) / 153
  let d := doy - (153 * mp + 2) / 5 + 1
  let m := mp + (if mp < 10 then 3 else -9)
  (if m ≤ 2 then y + 1 else y, m, d)

/-- Model of `datetime.date()`: the civil date of an instant (UTC wall clock). -/
def dtToDate (t : DT) : PDate :=
  let c := civilFromDays (Int.fdiv t.sec 86400)
  ⟨c.1.toNat, c.2.1.toNat, c.2.2.toNat⟩

/-- Zero-padded decimal rendering, at least `w` digits. -/
def padNat (w n : Nat) : String :=
  let s := toString n
  let l := s.length
  (String.mk (List.replicate (w - l) '0')) ++ s

/-- Model of `datetime.isoformat()` for the datetimes the engine produces (second
granularity, offset `+00:00` when aware, none when naive). -/
def isoDT (t : DT) : String :=
  let days := Int.fdiv t.sec 86400
  let sod := (Int.emod t.sec 86400).toNat
  let c := civilFromDays days
  padNat 4 c.1.toNat ++ "-" ++ padNat 2 c.2.1.toNat ++ "-" ++
    padNat 2 c.2.2.toNat ++ "T" ++ padNat 2 (sod / 3600) ++ ":" ++
    padNat 2 ((sod / 60) % 60) ++ ":" ++ padNat 2 (sod % 60) ++
    (if t.aware then "+00:00" else "")

/-- A scalar Python value (element of a parameter list or dict). -/
inductive Prim where
  | pnone
  | pstr (s : String)
  | pint (n : Int)
  | pbool (b : Bool)
  | pfloat (mantissa exponent : Int)
deriving DecidableEq

/-- A Python value as carried in a parameter mapping.  Container payloads
are modelled one level deep (the engine's parameter JSON, including the
injected `__time_range` dict, is flat); only the outer kind is ever
inspected by the validator. -/
inductive Value where
  | vnone
  | vstr (s : String)
  | vint (n : Int)
  | vbool (b : Bool)
  | vfloat (mantissa exponent : Int)
  | vlist (elems : List Prim)
  | vdict (entries : List (String × Prim))
deriving DecidableEq

/-- The six declared parameter kinds of `validator.TYPE_MAP`. -/
inductive PyType where
  | tstr | tint | tfloat | tbool | tlist | tdict
deriving DecidableEq

/-- Python `isinstance(v, TYPE_MAP[t])`.  `bool` is a subclass of `int`, so
a boolean is an instance of `int`; there is no other cross-kind instance
among the six registered types. -/
def isinstance : Value → PyType → Bool
  | .vstr _, .tstr => true
  | .vint _, .tint => true
  | .vbool _, .tint => true
  | .vbool _, .tbool => true
  | .vfloat _ _, .tfloat => true
  | .vlist _, .tlist => true
  | .vdict _, .tdict => true
  | _, _ => false

/-- Model of `validator.ParamSchema`: declared type plus optional default (a JSON
`null` default and an absent default are both Python `None`). -/
structure ParamSchema where
  type : PyType
  default : Option Value
deriving DecidableEq

/-- Model of `validator.TreatmentSchema` (params keep the file's insertion order). -/
structure TreatmentSchema where
  name : String
  description : String
  params : List (String × ParamSchema)
deriving DecidableEq

/-- The failures `merge_params` can raise (distinct messages in the code). -/
inductive MergeError where
  | missingParam (name : String)
  | typeMismatch (name : String)
  | unknownParams (keys : List String)
deriving DecidableEq

/-- The per-parameter loop of `merge_params` (validator.py lines 43-53):
resolve each declared parameter from `provided`, else its default, else
fail; type-check the resolved value with `isinstance`. -/
def mergeLoop : List (String × ParamSchema) → List (String × Value) →
    Except MergeError (List (String × Value))
  | [], _ => .ok []
  | (name, p) :: rest, provided =>
    let val? : Except MergeError Value :=
      match alookup provided name with
      | some v => .ok v
      | none =>
        match p.default with
        | some d => .ok d
        | none => .error (.missingParam name)
    match val? with
    | .error e => .error e
    | .ok val =>
      if isinstance val p.type then
        match mergeLoop rest provided with
        | .error e => .error e
        | .ok merged => .ok ((name, val) :: merged)
      else .error (.typeMismatch name)

/-- The keys of `provided` that are neither declared in the schema nor
`__`-prefixed (validator.py line 56 computes this set). -/
def unknownKeys (schema : TreatmentSchema) (provided : List (String × Value)) :
    List String :=
  (provided.map (fun kv => kv.1)).filter
    (fun k => (alookup schema.params k).isNone && !(pyStartsWith k "__"))

/-- Model of `validator.merge_params`: run the per-parameter loop, reject unknown
non-framework keys, then merge the `__`-prefixed keys through unchanged. -/
def merge_params (schema : TreatmentSchema) (provided : List (String × Value)) :
    Except MergeError (List (String × Value)) :=
  match mergeLoop schema.params provided with
  | .error e => .error e
  | .ok merged =>
    let frameworkKeys := provided.filter (fun kv => pyStartsWith kv.1 "__")
    if (unknownKeys schema provided).isEmpty then
      .ok (dictUpdate merged frameworkKeys)
    else .error (.unknownParams (unknownKeys schema provided))

/-- The fixed-shape pattern of `timefilter._DATE_RE` at the head of a
character list: four digits, a dash, two digits, a dash, two digits.
Returns the ten matched characters. -/
def dateTokenHere : List Char → Option (List Char)
  | a :: b :: c :: d :: e :: f :: g :: h :: i :: j :: _ =>
    if a.isDigit && b.isDigit && c.isDigit && d.isDigit && e == '-' &&
        f.isDigit && g.isDigit && h == '-' && i.isDigit && j.isDigit then
      some [a, b, c, d, e, f, g, h, i, j]
    else none
  | _ => none

/-- Model of `_DATE_RE.search`: the leftmost occurrence of the date pattern. -/
def findDateToken : List Char → Option (List Char)
  | [] => none
  | c :: cs =>
    match dateTokenHere (c :: cs) with
    | some t => some t
    | none => findDateToken cs

/-- Gregorian leap year (as used by `datetime.date`). -/
def isLeap (y : Nat) : Bool := y % 4 == 0 && (y % 100 != 0 || y % 400 == 0)

/-- Length of a month. -/
def daysInMonth (y m : Nat) : Nat :=
  if m == 2 then (if isLeap y then 29 else 28)
  else if m == 4 || m == 6 || m == 9 || m == 11 then 30
  else 31

/-- Numeric value of an ASCII digit. -/
def digitVal (c : Char) : Nat := c.toNat - 48

/-- Model of `date.fromisoformat` on a matched ten-character token: `none` when the
digits do not form a valid calendar date (Python raises `ValueError`). -/
def tokenToDate : List Char → Option PDate
  | [a, b, c, d, _, f, g, _, i, j] =>
    let y := ((digitVal a * 10 + digitVal b) * 10 + digitVal c) * 10 + digitVal d
    let m := digitVal f * 10 + digitVal g
    let dd := digitVal i * 10 + digitVal j
    if 1 ≤ y ∧ 1 ≤ m ∧ m ≤ 12 ∧ 1 ≤ dd ∧ dd ≤ daysInMonth y m then
      some ⟨y, m, dd⟩
    else none
  | _ => none

/-- Model of `timefilter.extract_date_from_filename`: regex-search the name for the
first `YYYY-MM-DD` digit pattern; no match is `None`; a match is fed to
`date.fromisoformat`, which raises `ValueError` on an invalid date. -/
def extract_date_from_filename (name : String) : Except String (Option PDate) :=
  match findDateToken name.toList with
  | none => .ok none
  | some t =>
    match tokenToDate t with
    | some d => .ok (some d)
    | none => .error "ValueError"

/-- A file as the engine sees it: its base name, and (when it is a parquet
file) the values of its timestamp-typed columns.  A directory is the flat
list of the regular files below it (`rglob`). -/
structure MFile where
  name : String
  tsCols : List (List DT)
deriving DecidableEq

/-- Keep a date iff it is not below `dFrom` and not above `dTo` (the two
skip conditions of `filter_files_by_date_range`; Python dates are always
truthy, so presence is the only guard). -/
def windowMatch (d : PDate) (dFrom dTo : Option PDate) : Bool :=
  (match dFrom with
   | some a => !dateLt d a
   | none => true) &&
  (match dTo with
   | some b => !dateLt b d
   | none => true)

/-- The loop of `filter_files_by_date_range` over already-computed date
bounds: drop undated files, keep dated files inside the window;
`extract_date_from_filename` may raise, aborting the whole call. -/
def filterGo (dFrom dTo : Option PDate) : List MFile → Except String (List MFile)
  | [] => .ok []
  | f :: rest =>
    match extract_date_from_filename f.name with
    | .error e => .error e
    | .ok none => filterGo dFrom dTo rest
    | .ok (some d) =>
      if windowMatch d dFrom dTo then
        match filterGo dFrom dTo rest with
        | .error e => .error e
        | .ok r => .ok (f :: r)
      else filterGo dFrom dTo rest

/-- Model of `timefilter.filter_files_by_date_range`. -/
def filter_files_by_date_range (files : List MFile) (tf tt : Option DT) :
    Except String (List MFile) :=
  filterGo (tf.map dtToDate) (tt.map dtToDate) files

/-- Does a directory hold any `*.parquet` file (`any(dir.rglob("*.parquet"))`). -/
def hasParquet (files : List MFile) : Bool :=
  files.any (fun f => pyEndsWith f.name ".parquet")

/-- Model of `max` of a pandas series of timestamps (strict `>` keeps the first of
equal instants, which is also what the caller's accumulator does). -/
def colMax : List DT → Option DT
  | [] => none
  | x :: xs => some (xs.foldl (fun acc y => if y.sec > acc.sec then y else acc) x)

/-- Model of `timefilter._last_file_date` and the filename fallback of
`compute_last_timestamp`: the max filename-embedded date over all files;
raises as soon as a filename's first date pattern is invalid. -/
def lastFileDate (files : List MFile) : Except String (Option PDate) :=
  files.foldl
    (fun acc f =>
      match acc with
      | .error e => .error e
      | .ok cur =>
        match extract_date_from_filename f.name with
        | .error e => .error e
        | .ok none => .ok cur
        | .ok (some d) =>
          .ok (match cur with
               | none => some d
               | some c => if dateLt c d then some d else some c))
    (.ok none)

/-- End of day (23:59:59 UTC) of a filename date, as an instant. -/
def dateSecsEOD (d : PDate) : Int :=
  daysFromCivil (Int.ofNat d.year) (Int.ofNat d.month) (Int.ofNat d.day) * 86400 + 86399

/-- Model of `timefilter.compute_last_timestamp`: the max timestamp over all
timestamp-typed columns of all parquet files (iteration order is
irrelevant to a max); when no parquet file yields a timestamp, fall back
to the latest filename-embedded date at 23:59:59 UTC. -/
def compute_last_timestamp (files : List MFile) : Except String (Option DT) :=
  let fromParquet :=
    (files.filter (fun f => pyEndsWith f.name ".parquet")).foldl
      (fun acc f =>
        f.tsCols.foldl
          (fun acc col =>
            match colMax col with
            | none => acc
            | some m =>
              match acc with
              | none => some m
              | some cur => if m.sec > cur.sec then some m else some cur)
          acc)
      none
  match fromParquet with
  | some ts => .ok (some ts)
  | none =>
    match lastFileDate files with
    | .error e => .error e
    | .ok none => .ok none
    | .ok (some d) => .ok (some ⟨dateSecsEOD d, true⟩)

/-- Model of `replace(minute=0, second=0, microsecond=0)` on the engine's datetimes
(UTC or naive wall clock): floor the instant to the hour. -/
def floorHour (t : DT) : DT := ⟨t.sec - Int.emod t.sec 3600, t.aware⟩

/-- Lines 139-153 of `resolve_last_range`: floor `from` to the hour, widen
to a 1-hour minimum (`to - 1h` keeps the tz of `to`), then force both
bounds timezone-aware. -/
def mkRange (lo li : DT) : Option DT × Option DT :=
  let f := floorHour lo
  let f := if li.sec - f.sec < 3600 then DT.mk (li.sec - 3600) li.aware else f
  let f := if f.aware then f else ⟨f.sec, true⟩
  let t := if li.aware then li else ⟨li.sec, true⟩
  (some f, some t)

/-- Line 136 onwards: the instant comparison and range construction. -/
def instantCheck (lo li : DT) : Except String (Option DT × Option DT) :=
  if lo.sec ≥ li.sec then .error "already up-to-date" else .ok (mkRange lo li)

/-- The condition of the filename-date short circuit (lines 129-134 of
`resolve_last_range`): the INPUT directory holds no parquet file, both
directories have a latest filename date, and the output's is not older. -/
def filenameShortCircuit (inp out : List MFile) : Bool :=
  !hasParquet inp &&
    (match lastFileDate inp, lastFileDate out with
     | .ok (some di), .ok (some dou) => dateLe di dou
     | _, _ => false)

/-- Model of `timefilter.resolve_last_range`. -/
def resolve_last_range (inp out : List MFile) :
    Except String (Option DT × Option DT) :=
  match compute_last_timestamp inp with
  | .error e => .error e
  | .ok none => .ok (none, none)
  | .ok (some li) =>
    match compute_last_timestamp out with
    | .error e => .error e
    | .ok none => .ok (none, none)
    | .ok (some lo) =>
      if hasParquet inp then instantCheck lo li
      else
        match lastFileDate inp with
        | .error e => .error e
        | .ok inDate =>
          match lastFileDate out with
          | .error e => .error e
          | .ok outDate =>
            match inDate, outDate with
            | some di, some dou =>
              if dateLe di dou then .error "already up-to-date"
              else instantCheck lo li
            | _, _ => instantCheck lo li

/-- The declared kind of a Python value (`None` has none of the six). -/
def kindOf : Value → Option PyType
  | .vnone => none
  | .vstr _ => some .tstr
  | .vint _ => some .tint
  | .vbool _ => some .tbool
  | .vfloat _ _ => some .tfloat
  | .vlist _ => some .tlist
  | .vdict _ => some .tdict

/-- What one invocation of a loaded plugin's `run` does: rewrite the
contents of its output directory, or raise.  The engine treats plugins as
opaque; a single invocation's outcome is data. -/
inductive PluginBehavior where
  | succeeds (newOutput : List MFile)
  | fails (msg : String)
deriving DecidableEq

deriving instance DecidableEq for Except

/-- A treatment directory on disk.  `schemaFile`: `none` when
`treatment.json` is missing, `some none` when its content fails JSON or
schema validation, `some (some s)` when it loads as `s`.  `runModule`:
`none` when `run.py` is missing, `some (.error m)` when importing it fails
or it lacks a `run` function, `some (.ok p)` when it loads as plugin `p`. -/
structure TreatmentDir where
  schemaFile : Option (Option TreatmentSchema)
  runModule : Option (Except String PluginBehavior)
deriving DecidableEq

/-- The events of `logger.log_event` (wall-clock timestamp and duration are
not modelled; the window bounds are kept as instants rather than their ISO
renderings). -/
inductive EvStatus where
  | start | success | error | skip
deriving DecidableEq

structure LogEvent where
  treatment : String
  status : EvStatus
  input_dir : String
  output_dir : String
  errMsg : Option String
  time_from : Option DT
  time_to : Option DT
deriving DecidableEq

/-- The arguments of one `run_treatment` call. -/
structure RunArgs where
  name : String
  input_dir : String
  output_dir : String
  params : List (String × Value)
  time_from : Option DT
  time_to : Option DT
  output_mode : String
deriving DecidableEq

/-- Model of `if time_from or time_to:` (present datetimes are always truthy). -/
def hasWindow (a : RunArgs) : Bool := a.time_from.isSome || a.time_to.isSome

/-- The observable machine state `run_treatment` acts on: the treatment
directories it can resolve (caller-local ones shadow built-ins), the
directory tree (a flat map from directory path to its regular files),
paths that exist but are plain files, the live filtered-view temporary
directories keyed by creation counter (`tempfile.mkdtemp` freshness), and
the append-only event log.  `trace` and `pluginCalls` are ghost fields
recording the `run_treatment` entries and plugin invocations. -/
structure World where
  localTreatments : List (String × TreatmentDir)
  builtinTreatments : List (String × TreatmentDir)
  dirs : List (String × List MFile)
  fileOnlyPaths : List String
  tmpdirs : List (Nat × List MFile)
  tmpCounter : Nat
  log : List LogEvent
  trace : List RunArgs
  pluginCalls : List String
deriving DecidableEq

def getDir (w : World) (p : String) : List MFile := (alookup w.dirs p).getD []

def setDir (w : World) (p : String) (files : List MFile) : World :=
  { w with dirs := dictSet w.dirs p files }

/-- Model of `Path.mkdir(parents=True, exist_ok=True)`. -/
def mkdirP (w : World) (p : String) : World :=
  match alookup w.dirs p with
  | some _ => w
  | none => { w with dirs := w.dirs ++ [(p, [])] }

def logEv (w : World) (e : LogEvent) : World := { w with log := w.log ++ [e] }

def pushTrace (a : RunArgs) (w : World) : World := { w with trace := w.trace ++ [a] }

def pushPlugin (w : World) (n : String) : World :=
  { w with pluginCalls := w.pluginCalls ++ [n] }

/-- Model of `tempfile.mkdtemp` + symlink materialization of the selected files. -/
def addTmp (w : World) (sel : List MFile) : World :=
  { w with tmpdirs := w.tmpdirs ++ [(w.tmpCounter, sel)],
           tmpCounter := w.tmpCounter + 1 }

/-- Model of `runner._cleanup_tmpdir` (`shutil.rmtree(..., ignore_errors=True)`). -/
def cleanupTmp (w : World) (k : Nat) : World :=
  { w with tmpdirs := w.tmpdirs.filter (fun kv => kv.1 != k) }

def cleanupOpt (w : World) : Option Nat → World
  | none => w
  | some k => cleanupTmp w k

/-- The errors `run_treatment` can raise, by raise site. -/
inductive RTError where
  | missingTreatment
  | schemaNotFound
  | configError
  | mergeErr (e : MergeError)
  | inputNotFound
  | notADirectory
  | valueError (m : String)
  | loadError (m : String)
  | pluginError (m : String)
deriving DecidableEq

/-- The validation failures of steps 1-4 of the runner (everything raised
before the output directory is touched). -/
def RTError.isValidation : RTError → Bool
  | .missingTreatment | .schemaNotFound | .configError | .mergeErr _
  | .inputNotFound | .notADirectory => true
  | _ => false

/-- Model of `runner.resolve_treatment_dir`: caller-local directory first, then the
built-in one, else `FileNotFoundError`. -/
def resolve_treatment_dir (w : World) (name : String) :
    Except RTError TreatmentDir :=
  match alookup w.localTreatments name with
  | some d => .ok d
  | none =>
    match alookup w.builtinTreatments name with
    | some d => .ok d
    | none => .error .missingTreatment

/-- Model of `validator.load_treatment`. -/
def load_treatment (t : TreatmentDir) : Except RTError TreatmentSchema :=
  match t.schemaFile with
  | none => .error .schemaNotFound
  | some none => .error .configError
  | some (some s) => .ok s

/-- Model of `validator.validate_input_dir`: exists-then-is_dir; returns the files
of the directory for later phases. -/
def validate_input_dir (w : World) (p : String) : Except RTError (List MFile) :=
  match alookup w.dirs p with
  | some files => .ok files
  | none =>
    if w.fileOnlyPaths.contains p then .error .notADirectory
    else .error .inputNotFound

/-- The `__time_range` value the runner injects (runner.py lines 106-111):
a dict with each bound's `isoformat()` or `None`. -/
def timeRangeVal (tf tt : Option DT) : Value :=
  .vdict [("from", match tf with | some t => .pstr (isoDT t) | none => .pnone),
          ("to", match tt with | some t => .pstr (isoDT t) | none => .pnone)]

/-- Model of `effective_params`: a copy of the caller's params, with `__time_range`
injected when a window is present. -/
def effectiveParams (a : RunArgs) : List (String × Value) :=
  if hasWindow a then dictSet a.params "__time_range" (timeRangeVal a.time_from a.time_to)
  else a.params

/-- Steps 1-4 of `run_treatment` (runner.py lines 102-114): resolve the
treatment, load its schema, merge the parameters, validate the input
path.  Pure reads; the world is untouched. -/
def validatePhase (a : RunArgs) (w : World) :
    Except RTError (TreatmentDir × List (String × Value) × List MFile) :=
  match resolve_treatment_dir w a.name with
  | .error e => .error e
  | .ok tdir =>
    match load_treatment tdir with
    | .error e => .error e
    | .ok schema =>
      match merge_params schema (effectiveParams a) with
      | .error e => .error (.mergeErr e)
      | .ok merged =>
        match validate_input_dir w a.input_dir with
        | .error e => .error e
        | .ok files => .ok (tdir, merged, files)

/-- Model of `runner._scoped_delete` over a directory's files: unlink dated files
inside the window in scan order; an invalid filename date raises mid-scan,
leaving that file and the unscanned rest in place.  Returns the surviving
files and the outcome. -/
def scopedDelete (dFrom dTo : Option PDate) :
    List MFile → List MFile × Except String Unit
  | [] => ([], .ok ())
  | f :: rest =>
    match extract_date_from_filename f.name with
    | .error e => (f :: rest, .error e)
    | .ok none =>
      let r := scopedDelete dFrom dTo rest
      (f :: r.1, r.2)
    | .ok (some d) =>
      if windowMatch d dFrom dTo then scopedDelete dFrom dTo rest
      else
        let r := scopedDelete dFrom dTo rest
        (f :: r.1, r.2)

/-- The output-mode handling of `run_treatment` (runner.py lines 119-126):
in `replace` mode, scoped deletion when a window is present, else delete
every output file. -/
def reconcileStep (w : World) (a : RunArgs) : World × Except RTError Unit :=
  if a.output_mode == "replace" then
    if hasWindow a then
      let r := scopedDelete (a.time_from.map dtToDate) (a.time_to.map dtToDate)
        (getDir w a.output_dir)
      (setDir w a.output_dir r.1,
       match r.2 with
       | .ok _ => .ok ()
       | .error m => .error (.valueError m))
    else (setDir w a.output_dir [], .ok ())
  else (w, .ok ())

/-- The recursive enumeration of `_build_filtered_input`: only `.csv` and
`.parquet` files are considered. -/
def structuredOnly (files : List MFile) : List MFile :=
  files.filter (fun f => pyEndsWith f.name ".csv" || pyEndsWith f.name ".parquet")

/-- Model of `runner.load_run_module`. -/
def load_run_module (t : TreatmentDir) : Except String PluginBehavior :=
  match t.runModule with
  | none => .error "run.py not found"
  | some (.error m) => .error m
  | some (.ok p) => .ok p

def mkEvent (a : RunArgs) (st : EvStatus) (err : Option String) : LogEvent :=
  ⟨a.name, st, a.input_dir, a.output_dir, err, a.time_from, a.time_to⟩

/-- Lines 143-163 of `run_treatment`: load the plugin module (outside the
`try`/`finally`), log `start`, invoke, log `success` or `error`, and clean
up the filtered view in the `finally` block.  `tkey` is the filtered
view's key when one was built. -/
def invokePhase (a : RunArgs) (tdir : TreatmentDir) (w : World)
    (tkey : Option Nat) : World × Except RTError Unit :=
  match load_run_module tdir with
  | .error m => (w, .error (.loadError m))
  | .ok p =>
    let w := logEv w (mkEvent a .start none)
    match p with
    | .succeeds newOut =>
      let w := pushPlugin w a.name
      let w := setDir w a.output_dir newOut
      let w := logEv w (mkEvent a .success none)
      (cleanupOpt w tkey, .ok ())
    | .fails m =>
      let w := pushPlugin w a.name
      let w := logEv w (mkEvent a .error (some m))
      (cleanupOpt w tkey, .error (.pluginError m))

/-- Model of `run_treatment` after the ghost trace push: validation, output-dir
creation, reconciliation, optional filtered view (with the empty-view skip
path), then plugin load and invocation. -/
def runBody (a : RunArgs) (w : World) : World × Except RTError Unit :=
  match validatePhase a w with
  | .error e => (w, .error e)
  | .ok (tdir, _merged, inputFiles) =>
    let w := mkdirP w a.output_dir
    match reconcileStep w a with
    | (w1, .error e) => (w1, .error e)
    | (w1, .ok _) =>
      if hasWindow a then
        match filter_files_by_date_range (structuredOnly inputFiles)
            a.time_from a.time_to with
        | .error m => (w1, .error (.valueError m))
        | .ok selected =>
          let k := w1.tmpCounter
          let w2 := addTmp w1 selected
          if selected.isEmpty then
            let w3 := logEv w2 (mkEvent a .skip none)
            (cleanupTmp w3 k, .ok ())
          else invokePhase a tdir w2 (some k)
      else invokePhase a tdir w1 none

/-- Model of `runner.run_treatment`. -/
def run_treatment (a : RunArgs) (w : World) : World × Except RTError Unit :=
  runBody a (pushTrace a w)

/-- A flow step after the composer's parameter merge and path resolution
(flow.py lines 92-106): treatment name, resolved input path, optional
output path, effective params. -/
structure Step where
  treatment : String
  input : String
  output : Option String
  params : List (String × Value)
deriving DecidableEq

/-- Python truthiness of an optional CLI string (absent or empty is falsy). -/
def truthyS : Option String → Bool
  | none => false
  | some s => !(s == "")

/-- First index of a name in the step-name list (`names.index`). -/
def idxOf (names : List String) (n : String) : Nat :=
  names.findIdx (fun x => x == n)

/-- Model of `flow._filter_steps`: either the single named step, or the inclusive
`[from_step, to_step]` slice by declared order; an unknown name raises
with that name. -/
def filter_steps (steps : List Step) (fromStep toStep stepSel : Option String) :
    Except String (List Step) :=
  let names := steps.map (fun s => s.treatment)
  if truthyS stepSel then
    let st := stepSel.getD ""
    if names.contains st then .ok (steps.filter (fun s => s.treatment == st))
    else .error st
  else
    match (if truthyS fromStep then
             let fs := fromStep.getD ""
             if names.contains fs then .ok (idxOf names fs) else .error fs
           else .ok 0 : Except String Nat) with
    | .error e => .error e
    | .ok start =>
      match (if truthyS toStep then
               let ts := toStep.getD ""
               if names.contains ts then .ok (idxOf names ts + 1) else .error ts
             else .ok steps.length : Except String Nat) with
      | .error e => .error e
      | .ok stop => .ok ((steps.drop start).take (stop - start))

/-- The wipe of one output directory (flow.py lines 116-123): when the
directory exists and holds at least one file, unlink every file under it
(the directory itself remains); a missing or already-empty directory is
untouched. -/
def wipeDir (w : World) (o : String) : World :=
  if ((alookup w.dirs o).getD []).isEmpty then w else setDir w o []

/-- The full-replace wipe of one step (flow.py lines 113-123): only steps
that declare an output are wiped. -/
def wipeStep (w : World) (s : Step) : World :=
  match s.output with
  | none => w
  | some o => wipeDir w o

/-- The flow-level wipe, applied to every selected step in order. -/
def wipeAll (sel : List Step) (w : World) : World := sel.foldl wipeStep w

inductive FlowError where
  | noSteps
  | stepNotFound (s : String)
  | keyError
  | stepFailed (treatment : String) (e : RTError)
deriving DecidableEq

/-- The step loop of `run_flow` (lines 140-153): run each selected step
through `run_treatment` with the flow's window and output mode; the first
failure aborts the remaining steps (`SystemExit(1)` naming the step). -/
def stepLoop (tf tt : Option DT) (mode : String) :
    List Step → World → World × Except FlowError Unit
  | [], w => (w, .ok ())
  | s :: rest, w =>
    let args : RunArgs :=
      ⟨s.treatment, s.input, s.output.getD "", s.params, tf, tt, mode⟩
    match run_treatment args w with
    | (w2, .ok _) => stepLoop tf tt mode rest w2
    | (w2, .error e) => (w2, .error (.stepFailed s.treatment e))

/-- Model of `flow.run_flow` from the point where the flow JSON has been loaded and
each step's params and paths resolved (lines 87-155): empty-step check,
step selection, the flow-level full-replace wipe (after which the mode is
`replace`), optional `--last` resolution from the first selected step
(`AlreadyUpToDate` is caught as a clean early return), then the step
loop.  `tf`/`tt` is the effective window already computed from CLI/flow
params. -/
def run_flow_exec (steps : List Step) (fromStep toStep stepSel : Option String)
    (tf tt : Option DT) (mode : String) (last : Bool) (w : World) :
    World × Except FlowError Unit :=
  if steps.isEmpty then (w, .error .noSteps)
  else
    match filter_steps steps fromStep toStep stepSel with
    | .error s => (w, .error (.stepNotFound s))
    | .ok sel =>
      let wm := if mode == "full-replace" then wipeAll sel w else w
      let mode2 := if mode == "full-replace" then "replace" else mode
      if last then
        match sel with
        | [] => (wm, .error .keyError)
        | first :: _ =>
          match first.output with
          | none => (wm, .error .keyError)
          | some outp =>
            match resolve_last_range (getDir wm first.input) (getDir wm outp) with
            | .error _ => (wm, .ok ())
            | .ok (tf2, tt2) => stepLoop tf2 tt2 mode2 sel wm
      else stepLoop tf tt mode2 sel wm

theorem alookup_append_some {α : Type} {xs : List (String × α)}
    (ys : List (String × α)) {k : String} {v : α}
    (h : alookup xs k = some v) : alookup (xs ++ ys) k = some v := by
  induction xs with
  | nil => simp [alookup] at h
  | cons hd tl ih =>
    obtain ⟨k1, v1⟩ := hd
    rw [alookup] at h
    rw [List.cons_append, alookup]
    cases hk : (k1 == k) <;> rw [hk] at h <;> simp_all

theorem alookup_append_none {α : Type} {xs : List (String × α)}
    (ys : List (String × α)) {k : String}
    (h : alookup xs k = none) : alookup (xs ++ ys) k = alookup ys k := by
  induction xs with
  | nil => simp [alookup]
  | cons hd tl ih =>
    obtain ⟨k1, v1⟩ := hd
    rw [alookup] at h
    rw [List.cons_append, alookup]
    cases hk : (k1 == k) <;> rw [hk] at h <;> simp_all

theorem alookup_mapUpdate {α : Type} (u : List (String × α)) (k : String)
    (vu : α) (hu : alookup u k = some vu) (d : List (String × α)) :
    alookup (d.map (fun kv =>
      match alookup u kv.1 with
      | some v => (kv.1, v)
      | none => kv)) k = (alookup d k).map (fun _ => vu) := by
  induction d with
  | nil => simp [alookup]
  | cons hd tl ih =>
    obtain ⟨k1, v1⟩ := hd
    rw [List.map_cons]
    cases hu1 : alookup u k1 with
    | none =>
      simp only [hu1]
      rw [alookup, alookup]
      cases hk : (k1 == k)
      · simp [ih]
      · have : k1 = k := eq_of_beq hk
        subst this
        rw [hu1] at hu
        exact absurd hu (by simp)
    | some v =>
      simp only [hu1]
      rw [alookup, alookup]
      cases hk : (k1 == k)
      · simp [ih]
      · have : k1 = k := eq_of_beq hk
        subst this
        rw [hu1] at hu
        simp_all

theorem alookup_filterKeys {α : Type} (p : String → Bool)
    (l : List (String × α)) (k : String) (hp : p k = true) :
    alookup (l.filter (fun kv => p kv.1)) k = alookup l k := by
  induction l with
  | nil => simp
  | cons hd tl ih =>
    obtain ⟨k1, v1⟩ := hd
    by_cases hk : k1 = k
    · subst hk
      simp [List.filter_cons, hp, alookup]
    · have hkb : (k1 == k) = false := by simpa using hk
      cases hpk : p k1 <;> simp [List.filter_cons, hpk, alookup, hkb, ih]

theorem alookup_dictUpdate {α : Type} (d u : List (String × α)) (k : String)
    (vu : α) (hu : alookup u k = some vu) :
    alookup (dictUpdate d u) k = some vu := by
  rw [dictUpdate]
  have hm := alookup_mapUpdate u k vu hu d
  cases hd : alookup d k with
  | some v =>
    rw [hd] at hm
    simp only [Option.map_some'] at hm
    exact alookup_append_some _ hm
  | none =>
    rw [hd] at hm
    simp only [Option.map_none'] at hm
    rw [alookup_append_none _ hm]
    have := alookup_filterKeys (fun s => (alookup d s).isNone) u k (by simp [hd])
    rw [this, hu]

theorem mergeLoop_error_not_unknown (ps : List (String × ParamSchema))
    (provided : List (String × Value)) (e : MergeError)
    (h : mergeLoop ps provided = .error e) :
    ∀ ks, e ≠ .unknownParams ks := by
  induction ps generalizing e with
  | nil => rw [mergeLoop] at h; exact absurd h (by simp)
  | cons hd rest ih =>
    obtain ⟨name, p⟩ := hd
    rw [mergeLoop] at h
    cases ha : alookup provided name with
    | some v =>
      rw [ha] at h
      simp only at h
      by_cases hi : isinstance v p.type = true
      · rw [if_pos hi] at h
        cases hrec : mergeLoop rest provided with
        | error e2 => rw [hrec] at h; simp at h; subst h; exact ih e2 hrec
        | ok m => rw [hrec] at h; simp at h
      · rw [if_neg hi] at h
        simp at h
        subst h
        intro ks hks
        cases hks
    | none =>
      rw [ha] at h
      cases hdef : p.default with
      | some dv =>
        rw [hdef] at h
        simp only at h
        by_cases hi : isinstance dv p.type = true
        · rw [if_pos hi] at h
          cases hrec : mergeLoop rest provided with
          | error e2 => rw [hrec] at h; simp at h; subst h; exact ih e2 hrec
          | ok m => rw [hrec] at h; simp at h
        · rw [if_neg hi] at h
          simp at h
          subst h
          intro ks hks
          cases hks
      | none =>
        rw [hdef] at h
        simp at h
        subst h
        intro ks hks
        cases hks

/-- Claim C2, counterexample: `merge_params` does NOT reject a boolean
value for a parameter declared `int` — `isinstance(True, int)` holds in
Python because `bool` subclasses `int` — so the merge succeeds where the
claim requires a `TypeMismatch` failure. -/
theorem C2_counterexample :
    merge_params ⟨"t", "", [("p", ⟨.tint, none⟩)]⟩ [("p", .vbool true)]
      = .ok [("p", .vbool true)] := by decide

/-- Claim C2 (amended): `merge_params` type-checks each resolved value
with Python `isinstance` semantics — for a single declared parameter the
merge fails `TypeMismatch` exactly when the value is not an instance of
the declared type, and `isinstance` accepts exactly the values of the
declared kind plus booleans for a parameter declared `int` (the `bool`
subclass of `int`); every other cross-kind value is rejected. -/
theorem C2_typecheck (sn sd name : String) (p : ParamSchema) (v : Value) :
    (merge_params ⟨sn, sd, [(name, p)]⟩ [(name, v)]
        = .error (.typeMismatch name) ↔ isinstance v p.type = false)
    ∧ (∀ u ty, isinstance u ty
        = ((kindOf u == some ty) || (kindOf u == some PyType.tbool && ty == PyType.tint))) := by
  constructor
  · by_cases hi : isinstance v p.type = true
    · simp [merge_params, mergeLoop, alookup, unknownKeys, hi]
    · simp only [Bool.not_eq_true] at hi
      simp [merge_params, mergeLoop, alookup, unknownKeys, hi]
  · intro u ty
    cases u <;> cases ty <;> rfl

/-- Claim C9, counterexample: with schema `{a: int, no default}` and
provided `{b: 1}`, the mapping contains a key (`b`) that is neither
declared nor `__`-prefixed, yet `merge_params` fails `MissingParam`
(raised by the per-parameter loop before the unknown-key check), not
`UnknownParams` — refuting the claimed "if and only if". -/
theorem C9_counterexample :
    merge_params ⟨"t", "", [("a", ⟨.tint, none⟩)]⟩ [("b", .vint 1)]
        = .error (.missingParam "a")
    ∧ unknownKeys ⟨"t", "", [("a", ⟨.tint, none⟩)]⟩ [("b", .vint 1)] = ["b"] := by
  decide

/-- Claim C9 (amended): `merge_params` fails `UnknownParams` iff the
per-parameter loop succeeds AND `provided` contains at least one key that
is neither declared in the schema nor `__`-prefixed (a missing-parameter
or type failure in the loop preempts the unknown-key check); the failure
reports exactly the offending keys; and on success every `__`-prefixed
provided key passes through into the merged result unchanged. -/
theorem C9_unknown_iff (schema : TreatmentSchema) (provided : List (String × Value)) :
    ((∃ ks, merge_params schema provided = .error (.unknownParams ks)) ↔
      ((∃ m, mergeLoop schema.params provided = .ok m)
        ∧ unknownKeys schema provided ≠ []))
    ∧ (∀ ks, merge_params schema provided = .error (.unknownParams ks) →
        ks = unknownKeys schema provided)
    ∧ (∀ res k v, merge_params schema provided = .ok res →
        pyStartsWith k "__" = true → alookup provided k = some v →
        alookup res k = some v) := by
  rcases hml : mergeLoop schema.params provided with e | m
  · have hne := mergeLoop_error_not_unknown schema.params provided e hml
    have hmp : merge_params schema provided = .error e := by
      rw [merge_params, hml]
    refine ⟨?_, ?_, ?_⟩
    · constructor
      · rintro ⟨ks, hks⟩
        rw [hmp] at hks
        exact absurd (by injection hks) (hne ks)
      · rintro ⟨⟨m, hm⟩, -⟩
        cases hm
    · intro ks hks
      rw [hmp] at hks
      exact absurd (by injection hks) (hne ks)
    · intro res k v hres
      rw [hmp] at hres
      cases hres
  · rcases hK : unknownKeys schema provided with - | ⟨k0, ks0⟩
    · have hmp : merge_params schema provided
          = .ok (dictUpdate m (provided.filter (fun kv => pyStartsWith kv.1 "__"))) := by
        rw [merge_params, hml, hK]
        rfl
      refine ⟨?_, ?_, ?_⟩
      · constructor
        · rintro ⟨ks, hks⟩
          rw [hmp] at hks
          cases hks
        · rintro ⟨-, hne⟩
          exact absurd rfl hne
      · intro ks hks
        rw [hmp] at hks
        cases hks
      · intro res k v hres hpre hprov
        rw [hmp] at hres
        have hres2 : dictUpdate m (provided.filter (fun kv => pyStartsWith kv.1 "__")) = res := by
          injection hres
        rw [← hres2]
        apply alookup_dictUpdate
        have := alookup_filterKeys (fun s => pyStartsWith s "__") provided k hpre
        rw [this, hprov]
    · have hmp : merge_params schema provided
          = .error (.unknownParams (k0 :: ks0)) := by
        rw [merge_params, hml, hK]
        rfl
      refine ⟨?_, ?_, ?_⟩
      · constructor
        · intro _
          exact ⟨⟨m, rfl⟩, by simp⟩
        · intro _
          exact ⟨k0 :: ks0, hmp⟩
      · intro ks hks
        rw [hmp] at hks
        have h2 : MergeError.unknownParams (k0 :: ks0)
            = MergeError.unknownParams ks := by injection hks
        injection h2 with h
        exact h.symm
      · intro res k v hres
        rw [hmp] at hres
        cases hres

/-- Witness for C9_unknown_iff: a schema-free merge with one reserved
`__`-prefixed key succeeds and the key passes through with its value. -/
theorem C9_unknown_iff_witness :
    merge_params ⟨"t", "", []⟩ [("__x", .vint 5)] = .ok [("__x", .vint 5)]
    ∧ alookup [("__x", Value.vint 5)] "__x" = some (.vint 5) :=
  ⟨by decide,
   (C9_unknown_iff ⟨"t", "", []⟩ [("__x", .vint 5)]).2.2
     [("__x", .vint 5)] "__x" (.vint 5) (by decide) (by decide) (by decide)⟩

theorem dateTokenHere_shape (l t : List Char) (h : dateTokenHere l = some t) :
    ∃ rest, l = t ++ rest := by
  unfold dateTokenHere at h
  split at h
  · split at h
    · injection h with h
      subst h
      exact ⟨_, rfl⟩
    · cases h
  · cases h

theorem findDateToken_split (cs t : List Char) (h : findDateToken cs = some t) :
    ∃ pre post, cs = pre ++ t ++ post := by
  induction cs with
  | nil => cases h
  | cons c rest ih =>
    rw [findDateToken] at h
    cases hh : dateTokenHere (c :: rest) with
    | some t0 =>
      rw [hh] at h
      injection h with h
      subst h
      obtain ⟨tail, htail⟩ := dateTokenHere_shape _ _ hh
      exact ⟨[], tail, by simpa using htail⟩
    | none =>
      rw [hh] at h
      obtain ⟨pre, post, hsplit⟩ := ih h
      exact ⟨c :: pre, post, by simp [hsplit]⟩

/-- Claim C4, counterexample: `extractDate` is NOT total — on a filename
whose first `YYYY-MM-DD` digit pattern is not a valid calendar date
(month 13), `date.fromisoformat` raises `ValueError` instead of the claim's
"returns the date or none, never fails". -/
theorem C4_counterexample :
    extract_date_from_filename "x2020-13-01.csv" = .error "ValueError" := by
  decide

/-- Claim C4 (amended): for every filename, `extractDate` either returns
none (no `YYYY-MM-DD` digit pattern occurs in the name), or locates the
leftmost such pattern — a genuine substring of the name — and returns its
date when it is a valid calendar date, or raises `ValueError` when it is
not (e.g. month 13 or day 45). -/
theorem C4_extract_cases (name : String) :
    (findDateToken name.toList = none → extract_date_from_filename name = .ok none)
    ∧ (∀ t, findDateToken name.toList = some t →
        (∃ pre post, name.toList = pre ++ t ++ post)
        ∧ ((∃ d, tokenToDate t = some d
              ∧ extract_date_from_filename name = .ok (some d))
           ∨ (tokenToDate t = none
              ∧ extract_date_from_filename name = .error "ValueError"))) := by
  constructor
  · intro h
    rw [extract_date_from_filename, h]
  · intro t ht
    refine ⟨findDateToken_split _ _ ht, ?_⟩
    have ht2 : findDateToken name.data = some t := ht
    cases htd : tokenToDate t with
    | some d =>
      left
      exact ⟨d, rfl, by simp [extract_date_from_filename, ht2, htd]⟩
    | none =>
      right
      exact ⟨rfl, by simp [extract_date_from_filename, ht2, htd]⟩

/-- Witness for C4_extract_cases at a concrete dated filename. -/
theorem C4_extract_cases_witness :
    findDateToken "a2020-01-05b.csv".toList = some "2020-01-05".toList
    ∧ ((∃ pre post, "a2020-01-05b.csv".toList = pre ++ "2020-01-05".toList ++ post)
       ∧ ((∃ d, tokenToDate "2020-01-05".toList = some d
             ∧ extract_date_from_filename "a2020-01-05b.csv" = .ok (some d))
          ∨ (tokenToDate "2020-01-05".toList = none
             ∧ extract_date_from_filename "a2020-01-05b.csv" = .error "ValueError"))) :=
  ⟨by decide,
   (C4_extract_cases "a2020-01-05b.csv").2 "2020-01-05".toList (by decide)⟩

theorem filterGo_mem (dF dT : Option PDate) :
    ∀ (files res : List MFile), filterGo dF dT files = .ok res →
      ∀ f, f ∈ res ↔ (f ∈ files
        ∧ ∃ d, extract_date_from_filename f.name = .ok (some d)
            ∧ windowMatch d dF dT = true) := by
  intro files
  induction files with
  | nil =>
    intro res h f
    rw [filterGo] at h
    injection h with h
    subst h
    simp
  | cons g rest ih =>
    intro res h f
    rw [filterGo] at h
    cases he : extract_date_from_filename g.name with
    | error e => rw [he] at h; cases h
    | ok od =>
      rw [he] at h
      cases od with
      | none =>
        simp only at h
        constructor
        · intro hf
          obtain ⟨hmem, hd⟩ := (ih res h f).mp hf
          exact ⟨List.mem_cons_of_mem _ hmem, hd⟩
        · rintro ⟨hmem, d, hd, hw⟩
          rcases List.mem_cons.mp hmem with hfg | hmem2
          · subst hfg
            rw [he] at hd
            cases hd
          · exact (ih res h f).mpr ⟨hmem2, d, hd, hw⟩
      | some d0 =>
        simp only at h
        cases hw0 : windowMatch d0 dF dT with
        | true =>
          rw [hw0] at h
          simp only [if_true] at h
          cases hrec : filterGo dF dT rest with
          | error e => rw [hrec] at h; cases h
          | ok r =>
            rw [hrec] at h
            injection h with h
            subst h
            constructor
            · intro hf
              rcases List.mem_cons.mp hf with hfg | hmem2
              · subst hfg
                exact ⟨List.mem_cons_self _ _, d0, he, hw0⟩
              · obtain ⟨hmem, hd⟩ := (ih r hrec f).mp hmem2
                exact ⟨List.mem_cons_of_mem _ hmem, hd⟩
            · rintro ⟨hmem, d, hd, hw⟩
              rcases List.mem_cons.mp hmem with hfg | hmem2
              · subst hfg
                exact List.mem_cons_self _ _
              · exact List.mem_cons_of_mem _ ((ih r hrec f).mpr ⟨hmem2, d, hd, hw⟩)
        | false =>
          rw [hw0] at h
          simp only [Bool.false_eq_true, if_false] at h
          constructor
          · intro hf
            obtain ⟨hmem, hd⟩ := (ih res h f).mp hf
            exact ⟨List.mem_cons_of_mem _ hmem, hd⟩
          · rintro ⟨hmem, d, hd, hw⟩
            rcases List.mem_cons.mp hmem with hfg | hmem2
            · subst hfg
              rw [he] at hd
              injection hd with hd
              injection hd with hd
              subst hd
              rw [hw0] at hw
              cases hw
            · exact (ih res h f).mpr ⟨hmem2, d, hd, hw⟩

/-- Claim C10 (confirmed): whenever `filterByDate` returns a result, that
result contains no file lacking an extractable filename date, and contains
exactly those input files whose extracted date lies within
`[from.date(), to.date()]`, each bound optional and open when absent
(`windowMatch` over the bounds' civil dates). -/
theorem C10_filter_exact (files : List MFile) (tf tt : Option DT)
    (res : List MFile)
    (h : filter_files_by_date_range files tf tt = .ok res) :
    (∀ f ∈ res, ∃ d, extract_date_from_filename f.name = .ok (some d))
    ∧ (∀ f, f ∈ res ↔ (f ∈ files
        ∧ ∃ d, extract_date_from_filename f.name = .ok (some d)
            ∧ windowMatch d (tf.map dtToDate) (tt.map dtToDate) = true)) := by
  rw [filter_files_by_date_range] at h
  have hmem := filterGo_mem (tf.map dtToDate) (tt.map dtToDate) files res h
  constructor
  · intro f hf
    obtain ⟨-, d, hd, -⟩ := (hmem f).mp hf
    exact ⟨d, hd⟩
  · exact hmem

/-- Witness for C10_filter_exact: a three-file directory (one undated, one
in range, one out of range) under a to-only window. -/
theorem C10_filter_exact_witness :
    filter_files_by_date_range
        [⟨"a-2024-01-01.csv", []⟩, ⟨"readme.txt", []⟩, ⟨"b-2024-01-05.csv", []⟩]
        none (some ⟨1704153600, true⟩)
      = .ok [⟨"a-2024-01-01.csv", []⟩]
    ∧ (∀ f ∈ [(⟨"a-2024-01-01.csv", []⟩ : MFile)],
        ∃ d, extract_date_from_filename f.name = .ok (some d)) :=
  ⟨by decide,
   (C10_filter_exact
      [⟨"a-2024-01-01.csv", []⟩, ⟨"readme.txt", []⟩, ⟨"b-2024-01-05.csv", []⟩]
      none (some ⟨1704153600, true⟩) [⟨"a-2024-01-01.csv", []⟩]
      (by decide)).1⟩

theorem mkRange_shape (lo li : DT) (f t : DT)
    (h : mkRange lo li = (some f, some t)) :
    3600 ≤ t.sec - f.sec ∧ f.aware = true ∧ t.aware = true
    ∧ t.sec = li.sec
    ∧ (if li.sec - (lo.sec - Int.emod lo.sec 3600) < 3600
       then f.sec = li.sec - 3600
       else f.sec = lo.sec - Int.emod lo.sec 3600) := by
  obtain ⟨los, loa⟩ := lo
  obtain ⟨lis, lia⟩ := li
  obtain ⟨fs, fa⟩ := f
  obtain ⟨ts, ta⟩ := t
  dsimp only at h ⊢
  by_cases h1 : lis - (los - Int.emod los 3600) < 3600 <;>
    cases loa <;> cases lia <;>
      simp only [mkRange, floorHour, h1, if_true, Bool.false_eq_true,
        Bool.true_eq_false, if_false, if_true, Prod.mk.injEq,
        Option.some.injEq, DT.mk.injEq, and_true, true_and] at h <;>
      obtain ⟨⟨hfs, hfa⟩, hts, hta⟩ := h <;>
      subst hfs <;> subst hfa <;> subst hts <;> subst hta <;>
      refine ⟨by omega, rfl, rfl, rfl, ?_⟩ <;>
      simp only [h1, if_true, if_false]

theorem instantCheck_ok (lo li : DT) (f t : DT)
    (h : instantCheck lo li = .ok (some f, some t)) :
    3600 ≤ t.sec - f.sec ∧ f.aware = true ∧ t.aware = true
    ∧ t.sec = li.sec
    ∧ (if li.sec - (lo.sec - Int.emod lo.sec 3600) < 3600
       then f.sec = li.sec - 3600
       else f.sec = lo.sec - Int.emod lo.sec 3600) := by
  rw [instantCheck] at h
  split at h
  · cases h
  · injection h with h
    exact mkRange_shape lo li f t h

/-- Claim C5 (confirmed): whenever `resolveIncrementalRange` returns with
both bounds non-none, the span is at least one hour, both bounds are
timezone-aware, `to` is the input's last timestamp, and `from` is the
output's last timestamp floored to the hour — pulled back to exactly
`to - 1h` when that raw span is under an hour. -/
theorem C5_min_span (inp out : List MFile) (f t : DT)
    (h : resolve_last_range inp out = .ok (some f, some t)) :
    3600 ≤ t.sec - f.sec ∧ f.aware = true ∧ t.aware = true
    ∧ ∃ li lo, compute_last_timestamp inp = .ok (some li)
        ∧ compute_last_timestamp out = .ok (some lo)
        ∧ t.sec = li.sec
        ∧ (if li.sec - (lo.sec - Int.emod lo.sec 3600) < 3600
           then f.sec = li.sec - 3600
           else f.sec = lo.sec - Int.emod lo.sec 3600) := by
  rw [resolve_last_range] at h
  cases hci : compute_last_timestamp inp with
  | error e => rw [hci] at h; cases h
  | ok oi =>
    rw [hci] at h
    cases oi with
    | none =>
      injection h with h
      simp at h
    | some li =>
      simp only at h
      cases hco : compute_last_timestamp out with
      | error e => rw [hco] at h; cases h
      | ok oo =>
        rw [hco] at h
        cases oo with
        | none =>
          injection h with h
          simp at h
        | some lo =>
          simp only at h
          have hic : instantCheck lo li = .ok (some f, some t) := by
            by_cases hp : hasParquet inp = true
            · rw [if_pos hp] at h
              exact h
            · rw [if_neg hp] at h
              cases hdi : lastFileDate inp with
              | error e => rw [hdi] at h; cases h
              | ok odi =>
                rw [hdi] at h
                cases hdo : lastFileDate out with
                | error e => rw [hdo] at h; cases h
                | ok odo =>
                  rw [hdo] at h
                  cases odi with
                  | none => cases odo <;> simpa using h
                  | some di =>
                    cases odo with
                    | none => simpa using h
                    | some dou =>
                      simp only at h
                      by_cases hle : dateLe di dou = true
                      · rw [if_pos hle] at h; cases h
                      · rw [if_neg hle] at h; exact h
          obtain ⟨h1, h2, h3, h4, h5⟩ := instantCheck_ok lo li f t hic
          exact ⟨h1, h2, h3, li, lo, rfl, rfl, h4, h5⟩

/-- Witness for C5_min_span: input parquet last timestamp 50000, output
parquet last timestamp 10000; the resolved range is [7200, 50000]. -/
theorem C5_min_span_witness :
    resolve_last_range [⟨"in.parquet", [[⟨50000, true⟩]]⟩]
        [⟨"out.parquet", [[⟨10000, true⟩]]⟩]
      = .ok (some ⟨7200, true⟩, some ⟨50000, true⟩)
    ∧ 3600 ≤ (⟨50000, true⟩ : DT).sec - (⟨7200, true⟩ : DT).sec :=
  ⟨by decide,
   (C5_min_span [⟨"in.parquet", [[⟨50000, true⟩]]⟩]
      [⟨"out.parquet", [[⟨10000, true⟩]]⟩]
      ⟨7200, true⟩ ⟨50000, true⟩ (by decide)).1⟩

/-- Claim C1, counterexample: the filename-date short circuit fires even
though the OUTPUT directory holds a parquet file — `resolve_last_range`
only tests the input directory for parquet.  Here the output's parquet
timestamp (3600) is older than the input's last timestamp (end of
2024-01-01), so the instant comparison would have produced a delta range,
yet the call fails `AlreadyUpToDate` from the filename-date comparison. -/
theorem C1_counterexample :
    resolve_last_range [⟨"a-2024-01-01.csv", []⟩]
        [⟨"b-2024-01-02.parquet", [[⟨3600, true⟩]]⟩]
      = .error "already up-to-date"
    ∧ hasParquet [⟨"b-2024-01-02.parquet", [[⟨3600, true⟩]]⟩] = true
    ∧ compute_last_timestamp [⟨"a-2024-01-01.csv", []⟩]
        = .ok (some ⟨1704153599, true⟩)
    ∧ compute_last_timestamp [⟨"b-2024-01-02.parquet", [[⟨3600, true⟩]]⟩]
        = .ok (some ⟨3600, true⟩)
    ∧ (3600 : Int) < 1704153599 := by
  refine ⟨by decide, by decide, by decide, by decide, by decide⟩

/-- Claim C1 (amended): the filename-date short circuit — failing
`AlreadyUpToDate` before any instant comparison whenever the output's
latest filename date is at least the input's — is taken exactly when the
INPUT directory holds no parquet file and both directories expose a
filename date; whether the output directory holds parquet files is
irrelevant to the branch. -/
theorem C1_short_circuit (inp out : List MFile) :
    (filenameShortCircuit inp out = true ↔
      (hasParquet inp = false
        ∧ ∃ di dou, lastFileDate inp = .ok (some di)
            ∧ lastFileDate out = .ok (some dou) ∧ dateLe di dou = true))
    ∧ (∀ li lo, compute_last_timestamp inp = .ok (some li) →
        compute_last_timestamp out = .ok (some lo) →
        filenameShortCircuit inp out = true →
        resolve_last_range inp out = .error "already up-to-date") := by
  constructor
  · rw [filenameShortCircuit]
    cases hp : hasParquet inp
    · cases hdi : lastFileDate inp with
      | error e => simp
      | ok odi =>
        cases hdo : lastFileDate out with
        | error e => cases odi <;> simp
        | ok odo =>
          cases odi with
          | none => simp
          | some di =>
            cases odo with
            | none => simp
            | some dou => simp
    · simp
  · intro li lo hci hco hsc
    rw [filenameShortCircuit] at hsc
    cases hp : hasParquet inp with
    | true => rw [hp] at hsc; cases hsc
    | false =>
      rw [hp] at hsc
      simp only [Bool.not_false, Bool.true_and] at hsc
      cases hdi : lastFileDate inp with
      | error e => rw [hdi] at hsc; cases hsc
      | ok odi =>
        cases hdo : lastFileDate out with
        | error e => rw [hdi, hdo] at hsc; cases odi <;> cases hsc
        | ok odo =>
          rw [hdi, hdo] at hsc
          cases odi with
          | none => cases hsc
          | some di =>
            cases odo with
            | none => cases hsc
            | some dou =>
              simp only at hsc
              rw [resolve_last_range]
              simp only [hci, hco, hp, Bool.false_eq_true, if_false, hdi, hdo]
              rw [if_pos hsc]

/-- Witness for C1_short_circuit: two CSV-only directories whose latest
filename dates are 2024-01-02 (input) and 2024-01-03 (output). -/
theorem C1_short_circuit_witness :
    filenameShortCircuit [⟨"a-2024-01-02.csv", []⟩] [⟨"b-2024-01-03.csv", []⟩] = true
    ∧ resolve_last_range [⟨"a-2024-01-02.csv", []⟩] [⟨"b-2024-01-03.csv", []⟩]
        = .error "already up-to-date" :=
  ⟨by decide,
   (C1_short_circuit [⟨"a-2024-01-02.csv", []⟩] [⟨"b-2024-01-03.csv", []⟩]).2
     ⟨1704239999, true⟩ ⟨1704326399, true⟩ (by decide) (by decide) (by decide)⟩

theorem fresh_filter (l : List (Nat × List MFile)) (c : Nat) (s : List MFile)
    (h : ∀ kv ∈ l, kv.1 < c) :
    (l ++ [(c, s)]).filter (fun kv => kv.1 != c) = l := by
  rw [List.filter_append]
  have h2 : List.filter (fun kv => kv.1 != c) [(c, s)] = [] := by simp
  rw [h2, List.append_nil]
  apply List.filter_eq_self.mpr
  intro kv hkv
  have := h kv hkv
  simp only [bne_iff_ne, ne_eq]
  omega

theorem mkdirP_keeps (w : World) (p : String) :
    (mkdirP w p).tmpdirs = w.tmpdirs
    ∧ (mkdirP w p).tmpCounter = w.tmpCounter
    ∧ (mkdirP w p).log = w.log
    ∧ (mkdirP w p).pluginCalls = w.pluginCalls
    ∧ (mkdirP w p).trace = w.trace := by
  cases halo : alookup w.dirs p <;> simp [mkdirP, halo]

theorem reconcileStep_keeps (w : World) (a : RunArgs) :
    (reconcileStep w a).1.tmpdirs = w.tmpdirs
    ∧ (reconcileStep w a).1.tmpCounter = w.tmpCounter
    ∧ (reconcileStep w a).1.log = w.log
    ∧ (reconcileStep w a).1.pluginCalls = w.pluginCalls
    ∧ (reconcileStep w a).1.trace = w.trace := by
  rw [reconcileStep]
  by_cases h1 : (a.output_mode == "replace") = true
  · by_cases h2 : hasWindow a = true
    · simp [h1, h2, setDir]
    · simp only [Bool.not_eq_true] at h2
      simp [h1, h2, setDir]
  · simp only [Bool.not_eq_true] at h1
    simp [h1]

theorem reconcileStep_error_shape (w : World) (a : RunArgs) (e : RTError)
    (h : (reconcileStep w a).2 = .error e) : ∃ m, e = .valueError m := by
  rw [reconcileStep] at h
  by_cases h1 : (a.output_mode == "replace") = true
  · by_cases h2 : hasWindow a = true
    · simp only [h1, h2, if_true] at h
      cases hs : (scopedDelete (a.time_from.map dtToDate) (a.time_to.map dtToDate)
          (getDir w a.output_dir)).2 with
      | ok u => rw [hs] at h; cases h
      | error m =>
        rw [hs] at h
        injection h with h
        exact ⟨m, h.symm⟩
    · simp only [Bool.not_eq_true] at h2
      simp [h1, h2] at h
  · simp only [Bool.not_eq_true] at h1
    simp [h1] at h

theorem invokePhase_error_shape (a : RunArgs) (tdir : TreatmentDir) (w : World)
    (tkey : Option Nat) (e : RTError)
    (h : (invokePhase a tdir w tkey).2 = .error e) :
    (∃ m, e = .loadError m) ∨ (∃ m, e = .pluginError m) := by
  rw [invokePhase] at h
  cases hl : load_run_module tdir with
  | error m =>
    rw [hl] at h
    injection h with h
    exact .inl ⟨m, h.symm⟩
  | ok p =>
    rw [hl] at h
    cases p with
    | succeeds newOut => simp at h
    | fails m =>
      simp only at h
      injection h with h
      exact .inr ⟨m, h.symm⟩

theorem invokePhase_trace (a : RunArgs) (tdir : TreatmentDir) (w : World)
    (tkey : Option Nat) : (invokePhase a tdir w tkey).1.trace = w.trace := by
  cases hl : load_run_module tdir with
  | error m => simp [invokePhase, hl]
  | ok p =>
    cases p <;> cases tkey <;>
      simp [invokePhase, hl, cleanupOpt, cleanupTmp, logEv, pushPlugin, setDir]

theorem invokePhase_tmpdirs_some (a : RunArgs) (tdir : TreatmentDir) (w : World)
    (k : Nat)
    (hnl : ∀ m, (invokePhase a tdir w (some k)).2 ≠ .error (.loadError m)) :
    (invokePhase a tdir w (some k)).1.tmpdirs
      = w.tmpdirs.filter (fun kv => kv.1 != k) := by
  cases hl : load_run_module tdir with
  | error m =>
    exact absurd (by simp [invokePhase, hl]) (hnl m)
  | ok p =>
    cases p <;>
      simp [invokePhase, hl, cleanupOpt, cleanupTmp, logEv, pushPlugin, setDir]

theorem invokePhase_tmpdirs_none (a : RunArgs) (tdir : TreatmentDir) (w : World)
    (hnl : ∀ m, (invokePhase a tdir w none).2 ≠ .error (.loadError m)) :
    (invokePhase a tdir w none).1.tmpdirs = w.tmpdirs := by
  cases hl : load_run_module tdir with
  | error m =>
    exact absurd (by simp [invokePhase, hl]) (hnl m)
  | ok p =>
    cases p <;>
      simp [invokePhase, hl, cleanupOpt, logEv, pushPlugin, setDir]

theorem runBody_post_validation (a : RunArgs) (w : World)
    (tdir : TreatmentDir) (merged : List (String × Value)) (files : List MFile)
    (hv : validatePhase a w = .ok (tdir, merged, files)) (e : RTError)
    (h : (runBody a w).2 = .error e) : e.isValidation = false := by
  rw [runBody, hv] at h
  simp only at h
  rcases hrec : reconcileStep (mkdirP w a.output_dir) a with ⟨w1, r1⟩
  rw [hrec] at h
  cases r1 with
  | error e1 =>
    simp only at h
    injection h with h
    subst h
    obtain ⟨m, rfl⟩ := reconcileStep_error_shape _ _ e1 (by rw [hrec])
    rfl
  | ok u =>
    simp only at h
    by_cases hw : hasWindow a = true
    · rw [hw] at h
      simp only [if_true] at h
      cases hfil : filter_files_by_date_range (structuredOnly files)
          a.time_from a.time_to with
      | error m =>
        rw [hfil] at h
        simp only at h
        injection h with h
        subst h
        rfl
      | ok selected =>
        rw [hfil] at h
        simp only at h
        by_cases hsel : selected.isEmpty = true
        · rw [hsel] at h
          simp only [if_true] at h
          cases h
        · simp only [Bool.not_eq_true] at hsel
          rw [hsel] at h
          simp only [Bool.false_eq_true, if_false] at h
          rcases invokePhase_error_shape _ _ _ _ _ h with ⟨m, rfl⟩ | ⟨m, rfl⟩ <;> rfl
    · simp only [Bool.not_eq_true] at hw
      rw [hw] at h
      simp only [Bool.false_eq_true, if_false] at h
      rcases invokePhase_error_shape _ _ _ _ _ h with ⟨m, rfl⟩ | ⟨m, rfl⟩ <;> rfl

/-- Claim C6 (confirmed): whenever `run_treatment` raises a validation
error (treatment resolution, schema loading, parameter merging, or
input-path validation), the observable filesystem — the directory tree,
the live filtered views, and the event log — is exactly as before the
call: no output directory created, no file deleted, no view built, no
event appended. -/
theorem C6_validation_no_mutation (a : RunArgs) (w w2 : World) (e : RTError)
    (h : run_treatment a w = (w2, .error e)) (hv : e.isValidation = true) :
    w2.dirs = w.dirs ∧ w2.tmpdirs = w.tmpdirs ∧ w2.log = w.log := by
  rw [run_treatment] at h
  cases hval : validatePhase a (pushTrace a w) with
  | error e0 =>
    rw [runBody, hval] at h
    simp only at h
    obtain ⟨h1, -⟩ := Prod.mk.injEq .. ▸ h
    subst h1
    exact ⟨rfl, rfl, rfl⟩
  | ok t3 =>
    obtain ⟨tdir, merged, files⟩ := t3
    have h2 : (runBody a (pushTrace a w)).2 = .error e := by rw [h]
    have h3 := runBody_post_validation a (pushTrace a w) tdir merged files hval e h2
    rw [h3] at hv
    cases hv

/-- Witness for C6_validation_no_mutation: resolving an unknown treatment
name fails `MissingTreatment` and leaves the world unchanged. -/
theorem C6_validation_no_mutation_witness :
    run_treatment ⟨"zz", "in", "out", [], none, none, "append"⟩
        ⟨[], [], [("in", [])], [], [], 0, [], [], []⟩
      = (⟨[], [], [("in", [])], [], [], 0, [],
          [⟨"zz", "in", "out", [], none, none, "append"⟩], []⟩,
         .error .missingTreatment)
    ∧ RTError.isValidation .missingTreatment = true
    ∧ ((⟨[], [], [("in", [])], [], [], 0, [],
          [⟨"zz", "in", "out", [], none, none, "append"⟩], []⟩ : World).dirs
        = (⟨[], [], [("in", [])], [], [], 0, [], [], []⟩ : World).dirs) :=
  ⟨by decide, by decide,
   (C6_validation_no_mutation
      ⟨"zz", "in", "out", [], none, none, "append"⟩
      ⟨[], [], [("in", [])], [], [], 0, [], [], []⟩
      ⟨[], [], [("in", [])], [], [], 0, [],
        [⟨"zz", "in", "out", [], none, none, "append"⟩], []⟩
      .missingTreatment (by decide) (by decide)).1⟩

/-- Claim C7, counterexample: an invocation that created a filtered view
exits without removing it.  The treatment directory has a valid
`treatment.json` but no `run.py`: the view is built (one dated file in
range), then `load_run_module` raises AFTER the view exists and OUTSIDE
the `try`/`finally` cleanup — the temporary directory is still live when
the exception propagates. -/
theorem C7_counterexample :
    (run_treatment ⟨"t", "in", "out", [], some ⟨0, true⟩, none, "append"⟩
        ⟨[("t", ⟨some (some ⟨"t", "", []⟩), none⟩)], [],
         [("in", [⟨"a-2024-01-01.csv", []⟩]), ("out", [])], [], [], 0, [], [], []⟩).2
      = .error (.loadError "run.py not found")
    ∧ (run_treatment ⟨"t", "in", "out", [], some ⟨0, true⟩, none, "append"⟩
        ⟨[("t", ⟨some (some ⟨"t", "", []⟩), none⟩)], [],
         [("in", [⟨"a-2024-01-01.csv", []⟩]), ("out", [])], [], [], 0, [], [], []⟩).1.tmpdirs
      = [(0, [⟨"a-2024-01-01.csv", []⟩])] := by
  refine ⟨by decide, by decide⟩

/-- Claim C7 (amended): on every exit path of `run_treatment` other than a
module-load failure — normal success, empty-view skip, plugin error, and
every pre-view validation or reconciliation failure — the set of live
filtered-view temporary directories is unchanged: any view that was
created has been removed when the call returns.  When `load_run_module`
fails after the view is built (`run.py` missing or unloadable), the view
leaks, as the counterexample shows. -/
theorem C7_view_cleanup (a : RunArgs) (w : World)
    (hwf : ∀ kv ∈ w.tmpdirs, kv.1 < w.tmpCounter)
    (hnl : ∀ m, (run_treatment a w).2 ≠ .error (.loadError m)) :
    (run_treatment a w).1.tmpdirs = w.tmpdirs := by
  rw [run_treatment] at hnl ⊢
  cases hval : validatePhase a (pushTrace a w) with
  | error e0 =>
    rw [runBody, hval]
    rfl
  | ok t3 =>
    obtain ⟨tdir, merged, files⟩ := t3
    rw [runBody, hval] at hnl ⊢
    simp only at hnl ⊢
    rcases hrec : reconcileStep (mkdirP (pushTrace a w) a.output_dir) a with ⟨w1, r1⟩
    simp only [hrec] at hnl ⊢
    have hk1 : w1.tmpdirs = w.tmpdirs := by
      have h5 := (reconcileStep_keeps (mkdirP (pushTrace a w) a.output_dir) a).1
      rw [hrec] at h5
      rw [h5, (mkdirP_keeps (pushTrace a w) a.output_dir).1]
      rfl
    have hc1 : w1.tmpCounter = w.tmpCounter := by
      have h5 := (reconcileStep_keeps (mkdirP (pushTrace a w) a.output_dir) a).2.1
      rw [hrec] at h5
      rw [h5, (mkdirP_keeps (pushTrace a w) a.output_dir).2.1]
      rfl
    have hwf1 : ∀ kv ∈ w1.tmpdirs, kv.1 < w1.tmpCounter := by
      rw [hk1, hc1]
      exact hwf
    cases r1 with
    | error e1 =>
      simp only
      exact hk1
    | ok u =>
      simp only at hnl ⊢
      by_cases hw : hasWindow a = true
      · simp only [hw, if_true] at hnl ⊢
        cases hfil : filter_files_by_date_range (structuredOnly files)
            a.time_from a.time_to with
        | error m =>
          simp only [hfil]
          exact hk1
        | ok selected =>
          simp only [hfil] at hnl ⊢
          by_cases hsel : selected.isEmpty = true
          · simp only [hsel, if_true]
            have hfr := fresh_filter w1.tmpdirs w1.tmpCounter selected hwf1
            simp only [cleanupTmp, logEv, addTmp]
            rw [hfr]
            exact hk1
          · simp only [Bool.not_eq_true] at hsel
            simp only [hsel, Bool.false_eq_true, if_false] at hnl ⊢
            rw [invokePhase_tmpdirs_some _ _ _ _ hnl]
            have : (addTmp w1 selected).tmpdirs
                = w1.tmpdirs ++ [(w1.tmpCounter, selected)] := rfl
            rw [this, fresh_filter w1.tmpdirs w1.tmpCounter selected hwf1]
            exact hk1
      · simp only [Bool.not_eq_true] at hw
        simp only [hw, Bool.false_eq_true, if_false] at hnl ⊢
        rw [invokePhase_tmpdirs_none _ _ _ hnl]
        exact hk1

/-- Witness for C7_view_cleanup: a successful windowed run (plugin loads
and succeeds) removes the filtered view it created. -/
theorem C7_view_cleanup_witness :
    (run_treatment ⟨"t", "in", "out", [], some ⟨0, true⟩, none, "append"⟩
        ⟨[("t", ⟨some (some ⟨"t", "", []⟩), some (.ok (.succeeds []))⟩)], [],
         [("in", [⟨"a-2024-01-01.csv", []⟩]), ("out", [])], [], [], 0, [], [], []⟩).2
      = .ok ()
    ∧ (run_treatment ⟨"t", "in", "out", [], some ⟨0, true⟩, none, "append"⟩
        ⟨[("t", ⟨some (some ⟨"t", "", []⟩), some (.ok (.succeeds []))⟩)], [],
         [("in", [⟨"a-2024-01-01.csv", []⟩]), ("out", [])], [], [], 0, [], [], []⟩).1.tmpdirs
      = [] :=
  ⟨by decide,
   C7_view_cleanup ⟨"t", "in", "out", [], some ⟨0, true⟩, none, "append"⟩
     ⟨[("t", ⟨some (some ⟨"t", "", []⟩), some (.ok (.succeeds []))⟩)], [],
      [("in", [⟨"a-2024-01-01.csv", []⟩]), ("out", [])], [], [], 0, [], [], []⟩
     (by decide)
     (by intro m hm
         rw [show (run_treatment ⟨"t", "in", "out", [], some ⟨0, true⟩, none, "append"⟩
           ⟨[("t", ⟨some (some ⟨"t", "", []⟩), some (.ok (.succeeds []))⟩)], [],
            [("in", [⟨"a-2024-01-01.csv", []⟩]), ("out", [])], [], [], 0, [], [], []⟩).2
           = .ok () by decide] at hm
         cases hm)⟩

/-- Claim C8 (confirmed): when a window is supplied and the filtered input
view selects zero files, `run_treatment` logs exactly one event — a `skip`
carrying the window — returns success, never invokes the plugin, and
leaves no live view behind; no `start`, `success` or `error` event is
appended. -/
theorem C8_empty_view_skip (a : RunArgs) (w : World)
    (tdir : TreatmentDir) (merged : List (String × Value)) (files : List MFile)
    (hwin : hasWindow a = true)
    (hval : validatePhase a w = .ok (tdir, merged, files))
    (hrec : (reconcileStep (mkdirP (pushTrace a w) a.output_dir) a).2 = .ok ())
    (hfil : filter_files_by_date_range (structuredOnly files)
        a.time_from a.time_to = .ok [])
    (hwf : ∀ kv ∈ w.tmpdirs, kv.1 < w.tmpCounter) :
    (run_treatment a w).2 = .ok ()
    ∧ (run_treatment a w).1.log = w.log ++ [mkEvent a .skip none]
    ∧ (run_treatment a w).1.pluginCalls = w.pluginCalls
    ∧ (run_treatment a w).1.tmpdirs = w.tmpdirs := by
  have hval2 : validatePhase a (pushTrace a w) = .ok (tdir, merged, files) := hval
  rw [run_treatment, runBody, hval2]
  simp only
  rcases hrec2 : reconcileStep (mkdirP (pushTrace a w) a.output_dir) a with ⟨w1, r1⟩
  rw [hrec2] at hrec
  simp only at hrec
  subst hrec
  have hkt : w1.tmpdirs = w.tmpdirs := by
    have h5 := (reconcileStep_keeps (mkdirP (pushTrace a w) a.output_dir) a).1
    rw [hrec2] at h5
    rw [h5, (mkdirP_keeps (pushTrace a w) a.output_dir).1]
    rfl
  have hkc : w1.tmpCounter = w.tmpCounter := by
    have h5 := (reconcileStep_keeps (mkdirP (pushTrace a w) a.output_dir) a).2.1
    rw [hrec2] at h5
    rw [h5, (mkdirP_keeps (pushTrace a w) a.output_dir).2.1]
    rfl
  have hkl : w1.log = w.log := by
    have h5 := (reconcileStep_keeps (mkdirP (pushTrace a w) a.output_dir) a).2.2.1
    rw [hrec2] at h5
    rw [h5, (mkdirP_keeps (pushTrace a w) a.output_dir).2.2.1]
    rfl
  have hkp : w1.pluginCalls = w.pluginCalls := by
    have h5 := (reconcileStep_keeps (mkdirP (pushTrace a w) a.output_dir) a).2.2.2.1
    rw [hrec2] at h5
    rw [h5, (mkdirP_keeps (pushTrace a w) a.output_dir).2.2.2.1]
    rfl
  simp only [hwin, if_true, hfil, List.isEmpty_nil, if_true]
  refine ⟨?_, ?_, ?_, ?_⟩
  · trivial
  · simp only [cleanupTmp, logEv, addTmp]
    rw [hkl]
  · simp only [cleanupTmp, logEv, addTmp]
    rw [hkp]
  · simp only [cleanupTmp, logEv, addTmp]
    rw [fresh_filter w1.tmpdirs w1.tmpCounter [] (by rw [hkt, hkc]; exact hwf)]
    exact hkt

/-- Witness for C8_empty_view_skip: a window after the only input file's
date produces an empty view; the call skips. -/
theorem C8_empty_view_skip_witness :
    (run_treatment ⟨"t", "in", "out", [], some ⟨1704240000, true⟩, none, "append"⟩
        ⟨[("t", ⟨some (some ⟨"t", "", []⟩), some (.ok (.succeeds []))⟩)], [],
         [("in", [⟨"a-2024-01-01.csv", []⟩]), ("out", [])], [], [], 0, [], [], []⟩).2
      = .ok ()
    ∧ (run_treatment ⟨"t", "in", "out", [], some ⟨1704240000, true⟩, none, "append"⟩
        ⟨[("t", ⟨some (some ⟨"t", "", []⟩), some (.ok (.succeeds []))⟩)], [],
         [("in", [⟨"a-2024-01-01.csv", []⟩]), ("out", [])], [], [], 0, [], [], []⟩).1.log
      = [] ++ [mkEvent ⟨"t", "in", "out", [], some ⟨1704240000, true⟩, none, "append"⟩
          .skip none] := by
  have h := C8_empty_view_skip
    ⟨"t", "in", "out", [], some ⟨1704240000, true⟩, none, "append"⟩
    ⟨[("t", ⟨some (some ⟨"t", "", []⟩), some (.ok (.succeeds []))⟩)], [],
     [("in", [⟨"a-2024-01-01.csv", []⟩]), ("out", [])], [], [], 0, [], [], []⟩
    ⟨some (some ⟨"t", "", []⟩), some (.ok (.succeeds []))⟩
    [("__time_range", Value.vdict
        [("from", .pstr "2024-01-03T00:00:00+00:00"), ("to", .pnone)])]
    [⟨"a-2024-01-01.csv", []⟩]
    (by decide) (by decide) (by decide) (by decide) (by decide)
  exact ⟨h.1, h.2.1⟩

theorem alookup_dictSet_self {α : Type} (l : List (String × α)) (k : String)
    (v : α) : alookup (dictSet l k v) k = some v := by
  rw [dictSet]
  by_cases hs : (alookup l k).isSome = true
  · rw [if_pos hs]
    induction l with
    | nil => simp [alookup] at hs
    | cons hd tl ih =>
      obtain ⟨k1, v1⟩ := hd
      cases hk : (k1 == k)
      · rw [alookup, hk] at hs
        simp only [if_false, Bool.false_eq_true] at hs
        rw [List.map_cons]
        simp only [hk, Bool.false_eq_true, if_false]
        rw [alookup, hk]
        simp only [Bool.false_eq_true, if_false]
        exact ih hs
      · rw [List.map_cons]
        simp only [hk, if_true]
        rw [alookup]
        simp [beq_self_eq_true]
  · have hs2 : alookup l k = none := by
      cases hx : alookup l k
      · rfl
      · rw [hx] at hs; simp at hs
    rw [if_neg (by rw [hs2]; simp)]
    rw [alookup_append_none _ hs2, alookup]
    simp

theorem alookup_dictSet_other {α : Type} (l : List (String × α)) (k : String)
    (v : α) (k2 : String) (hk : (k == k2) = false) :
    alookup (dictSet l k v) k2 = alookup l k2 := by
  rw [dictSet]
  by_cases hs : (alookup l k).isSome = true
  · rw [if_pos hs]
    clear hs
    induction l with
    | nil => simp
    | cons hd tl ih =>
      obtain ⟨k1, v1⟩ := hd
      rw [List.map_cons]
      cases hk1 : (k1 == k)
      · simp only [hk1, Bool.false_eq_true, if_false]
        rw [alookup, alookup]
        cases hk2 : (k1 == k2)
        · simp only [Bool.false_eq_true, if_false]
          exact ih
        · simp only [if_true]
      · simp only [hk1, if_true]
        have : k1 = k := eq_of_beq hk1
        subst this
        rw [alookup, alookup, hk]
        simp only [Bool.false_eq_true, if_false]
        exact ih
  · have hs2 : alookup l k = none := by
      cases hx : alookup l k
      · rfl
      · rw [hx] at hs; simp at hs
    rw [if_neg (by rw [hs2]; simp)]
    cases h2 : alookup l k2 with
    | some v2 => exact alookup_append_some _ h2
    | none =>
      rw [alookup_append_none _ h2, alookup, hk]
      simp [alookup]

theorem wipeDir_pres_some (w : World) (o2 o : String)
    (h : (alookup w.dirs o).isSome = true) :
    (alookup (wipeDir w o2).dirs o).isSome = true := by
  rw [wipeDir]
  by_cases he : ((alookup w.dirs o2).getD []).isEmpty = true
  · rw [if_pos he]
    exact h
  · rw [if_neg he]
    simp only [setDir]
    cases hk : (o2 == o)
    · rw [alookup_dictSet_other _ _ _ _ hk]
      exact h
    · have hko : o2 = o := eq_of_beq hk
      subst hko
      rw [alookup_dictSet_self]
      rfl

theorem wipeDir_pres_nil (w : World) (o2 o : String)
    (h : alookup w.dirs o = some []) :
    alookup (wipeDir w o2).dirs o = some [] := by
  rw [wipeDir]
  by_cases he : ((alookup w.dirs o2).getD []).isEmpty = true
  · rw [if_pos he]
    exact h
  · rw [if_neg he]
    simp only [setDir]
    cases hk : (o2 == o)
    · rw [alookup_dictSet_other _ _ _ _ hk]
      exact h
    · have hko : o2 = o := eq_of_beq hk
      subst hko
      rw [alookup_dictSet_self]

theorem wipeDir_self (w : World) (o : String)
    (h : (alookup w.dirs o).isSome = true) :
    alookup (wipeDir w o).dirs o = some [] := by
  rw [wipeDir]
  by_cases he : ((alookup w.dirs o).getD []).isEmpty = true
  · rw [if_pos he]
    cases ha : alookup w.dirs o with
    | none => rw [ha] at h; cases h
    | some files =>
      rw [ha] at he
      simp only [Option.getD_some, List.isEmpty_iff] at he
      rw [he]
  · rw [if_neg he]
    simp only [setDir]
    rw [alookup_dictSet_self]

theorem wipeStep_pres_some (w : World) (s : Step) (o : String)
    (h : (alookup w.dirs o).isSome = true) :
    (alookup (wipeStep w s).dirs o).isSome = true := by
  cases ho2 : s.output with
  | none => simp only [wipeStep, ho2]; exact h
  | some o2 => simp only [wipeStep, ho2]; exact wipeDir_pres_some w o2 o h

theorem wipeStep_pres_nil (w : World) (s : Step) (o : String)
    (h : alookup w.dirs o = some []) :
    alookup (wipeStep w s).dirs o = some [] := by
  cases ho2 : s.output with
  | none => simp only [wipeStep, ho2]; exact h
  | some o2 => simp only [wipeStep, ho2]; exact wipeDir_pres_nil w o2 o h

theorem wipeStep_self (w : World) (s : Step) (o : String)
    (ho : s.output = some o) (h : (alookup w.dirs o).isSome = true) :
    alookup (wipeStep w s).dirs o = some [] := by
  simp only [wipeStep, ho]
  exact wipeDir_self w o h

theorem wipeAll_pres_nil (sel : List Step) :
    ∀ (w : World) (o : String), alookup w.dirs o = some [] →
      alookup (wipeAll sel w).dirs o = some [] := by
  induction sel with
  | nil => intro w o h; exact h
  | cons s rest ih =>
    intro w o h
    rw [wipeAll, List.foldl_cons]
    exact ih (wipeStep w s) o (wipeStep_pres_nil w s o h)

theorem wipeAll_empties (sel : List Step) :
    ∀ (w : World) (s : Step) (o : String), s ∈ sel → s.output = some o →
      (alookup w.dirs o).isSome = true →
      alookup (wipeAll sel w).dirs o = some [] := by
  induction sel with
  | nil => intro w s o hm; cases hm
  | cons s1 rest ih =>
    intro w s o hm ho hsome
    rw [wipeAll, List.foldl_cons]
    rcases List.mem_cons.mp hm with rfl | hm2
    · exact wipeAll_pres_nil rest (wipeStep w s) o (wipeStep_self w s o ho hsome)
    · exact ih (wipeStep w s1) s o hm2 ho (wipeStep_pres_some w s1 o hsome)

theorem wipeStep_trace (w : World) (s : Step) : (wipeStep w s).trace = w.trace := by
  cases ho2 : s.output with
  | none => simp only [wipeStep, ho2]
  | some o2 =>
    simp only [wipeStep, ho2, wipeDir]
    by_cases he : ((alookup w.dirs o2).getD []).isEmpty = true
    · rw [if_pos he]
    · rw [if_neg he]
      rfl

theorem wipeAll_trace (sel : List Step) :
    ∀ w : World, (wipeAll sel w).trace = w.trace := by
  induction sel with
  | nil => intro w; rfl
  | cons s rest ih =>
    intro w
    rw [wipeAll, List.foldl_cons]
    rw [show rest.foldl wipeStep (wipeStep w s) = wipeAll rest (wipeStep w s) from rfl]
    rw [ih (wipeStep w s), wipeStep_trace]

theorem runBody_trace (a : RunArgs) (w : World) :
    (runBody a w).1.trace = w.trace := by
  rw [runBody]
  cases hval : validatePhase a w with
  | error e0 => rfl
  | ok t3 =>
    obtain ⟨tdir, merged, files⟩ := t3
    simp only
    rcases hrec : reconcileStep (mkdirP w a.output_dir) a with ⟨w1, r1⟩
    have hk : w1.trace = w.trace := by
      have h5 := (reconcileStep_keeps (mkdirP w a.output_dir) a).2.2.2.2
      rw [hrec] at h5
      rw [h5, (mkdirP_keeps w a.output_dir).2.2.2.2]
    cases r1 with
    | error e1 =>
      simp only
      exact hk
    | ok u =>
      simp only
      by_cases hw : hasWindow a = true
      · simp only [hw, if_true]
        cases hfil : filter_files_by_date_range (structuredOnly files)
            a.time_from a.time_to with
        | error m =>
          simp only [hfil]
          exact hk
        | ok selected =>
          simp only [hfil]
          by_cases hsel : selected.isEmpty = true
          · simp only [hsel, if_true, cleanupTmp, logEv, addTmp]
            exact hk
          · simp only [Bool.not_eq_true] at hsel
            simp only [hsel, Bool.false_eq_true, if_false]
            rw [invokePhase_trace]
            exact hk
      · simp only [Bool.not_eq_true] at hw
        simp only [hw, Bool.false_eq_true, if_false]
        rw [invokePhase_trace]
        exact hk

theorem run_treatment_trace (a : RunArgs) (w : World) :
    (run_treatment a w).1.trace = w.trace ++ [a] := by
  rw [run_treatment, runBody_trace]
  rfl

theorem stepLoop_trace (tf tt : Option DT) (mode : String) :
    ∀ (sel : List Step) (w : World),
      ∃ l, (stepLoop tf tt mode sel w).1.trace = w.trace ++ l
        ∧ ∀ args ∈ l, args.output_mode = mode
            ∧ args.time_from = tf ∧ args.time_to = tt := by
  intro sel
  induction sel with
  | nil =>
    intro w
    exact ⟨[], by simp [stepLoop], by simp⟩
  | cons s rest ih =>
    intro w
    simp only [stepLoop]
    rcases hrt : run_treatment
        ⟨s.treatment, s.input, s.output.getD "", s.params, tf, tt, mode⟩ w
      with ⟨w2, r⟩
    have htr : w2.trace
        = w.trace ++ [⟨s.treatment, s.input, s.output.getD "", s.params, tf, tt, mode⟩] := by
      have h5 := run_treatment_trace
        ⟨s.treatment, s.input, s.output.getD "", s.params, tf, tt, mode⟩ w
      rw [hrt] at h5
      exact h5
    cases r with
    | ok u =>
      simp only
      obtain ⟨l, hl, hp⟩ := ih w2
      refine ⟨⟨s.treatment, s.input, s.output.getD "", s.params, tf, tt, mode⟩ :: l,
        ?_, ?_⟩
      · rw [hl, htr]
        simp
      · intro args hm
        rcases List.mem_cons.mp hm with rfl | hm2
        · exact ⟨rfl, rfl, rfl⟩
        · exact hp args hm2
    | error e =>
      simp only
      refine ⟨[⟨s.treatment, s.input, s.output.getD "", s.params, tf, tt, mode⟩],
        htr, ?_⟩
      intro args hm
      rcases List.mem_cons.mp hm with rfl | hm2
      · exact ⟨rfl, rfl, rfl⟩
      · cases hm2

/-- Claim C3, counterexample: a full-replace flow run with a supplied time
window does NOT run its step "with no time window at the per-step level".
The single step receives the window unchanged (ghost call trace), and
because the window excludes the only input file, the runner takes the
empty-view skip path — logging a `skip` event that carries the window and
never invoking the plugin — where a window-less replace run would have
invoked it. -/
theorem C3_counterexample :
    ((run_flow_exec [⟨"t", "in", some "outF", []⟩] none none none
        (some ⟨1704240000, true⟩) none "full-replace" false
        ⟨[("t", ⟨some (some ⟨"t", "", []⟩), some (.ok (.succeeds []))⟩)], [],
         [("in", [⟨"a-2024-01-02.csv", []⟩]),
          ("outF", [⟨"old-2024-01-02.csv", []⟩])], [], [], 0, [], [], []⟩).1.trace.map
        (fun a => (a.time_from, a.output_mode)))
      = [(some ⟨1704240000, true⟩, "replace")]
    ∧ ((run_flow_exec [⟨"t", "in", some "outF", []⟩] none none none
        (some ⟨1704240000, true⟩) none "full-replace" false
        ⟨[("t", ⟨some (some ⟨"t", "", []⟩), some (.ok (.succeeds []))⟩)], [],
         [("in", [⟨"a-2024-01-02.csv", []⟩]),
          ("outF", [⟨"old-2024-01-02.csv", []⟩])], [], [], 0, [], [], []⟩).1.log.map
        (fun e => (e.status, e.time_from)))
      = [(EvStatus.skip, some ⟨1704240000, true⟩)]
    ∧ (run_flow_exec [⟨"t", "in", some "outF", []⟩] none none none
        (some ⟨1704240000, true⟩) none "full-replace" false
        ⟨[("t", ⟨some (some ⟨"t", "", []⟩), some (.ok (.succeeds []))⟩)], [],
         [("in", [⟨"a-2024-01-02.csv", []⟩]),
          ("outF", [⟨"old-2024-01-02.csv", []⟩])], [], [], 0, [], [], []⟩).1.pluginCalls
      = [] := by
  refine ⟨by decide, by decide, by decide⟩

/-- Claim C3 (amended): when full-replace is requested for a flow (without
`--last`), the output tree of every selected step that declares an output
is wiped exactly once before any step executes, and every selected step
thereafter runs in replace mode — but the flow's time window, when
supplied, is still passed to every step; it is not cleared. -/
theorem C3_full_replace (steps : List Step) (fs ts ss : Option String)
    (tf tt : Option DT) (w : World) (sel : List Step)
    (hne : steps.isEmpty = false)
    (hsel : filter_steps steps fs ts ss = .ok sel) :
    run_flow_exec steps fs ts ss tf tt "full-replace" false w
      = stepLoop tf tt "replace" sel (wipeAll sel w)
    ∧ (∀ s ∈ sel, ∀ o, s.output = some o → (alookup w.dirs o).isSome = true →
        alookup (wipeAll sel w).dirs o = some [])
    ∧ (∀ args ∈ ((run_flow_exec steps fs ts ss tf tt
          "full-replace" false w).1.trace.drop w.trace.length),
        args.output_mode = "replace" ∧ args.time_from = tf ∧ args.time_to = tt) := by
  have heq : run_flow_exec steps fs ts ss tf tt "full-replace" false w
      = stepLoop tf tt "replace" sel (wipeAll sel w) := by
    rw [run_flow_exec]
    simp only [hne, Bool.false_eq_true, if_false, hsel]
    rfl
  refine ⟨heq, fun s hs o ho hsome => wipeAll_empties sel w s o hs ho hsome, ?_⟩
  intro args hm
  rw [heq] at hm
  obtain ⟨l, hl, hp⟩ := stepLoop_trace tf tt "replace" sel (wipeAll sel w)
  rw [hl, wipeAll_trace] at hm
  rw [List.drop_left] at hm
  exact hp args hm

/-- Witness for C3_full_replace at a one-step flow with a supplied window. -/
theorem C3_full_replace_witness :
    run_flow_exec [⟨"t", "in", some "outF", []⟩] none none none
        (some ⟨1704240000, true⟩) none "full-replace" false
        ⟨[("t", ⟨some (some ⟨"t", "", []⟩), some (.ok (.succeeds []))⟩)], [],
         [("in", [⟨"a-2024-01-02.csv", []⟩]),
          ("outF", [⟨"old-2024-01-02.csv", []⟩])], [], [], 0, [], [], []⟩
      = stepLoop (some ⟨1704240000, true⟩) none "replace"
          [⟨"t", "in", some "outF", []⟩]
          (wipeAll [⟨"t", "in", some "outF", []⟩]
            ⟨[("t", ⟨some (some ⟨"t", "", []⟩), some (.ok (.succeeds []))⟩)], [],
             [("in", [⟨"a-2024-01-02.csv", []⟩]),
              ("outF", [⟨"old-2024-01-02.csv", []⟩])], [], [], 0, [], [], []⟩) :=
  (C3_full_replace [⟨"t", "in", some "outF", []⟩] none none none
    (some ⟨1704240000, true⟩) none
    ⟨[("t", ⟨some (some ⟨"t", "", []⟩), some (.ok (.succeeds []))⟩)], [],
     [("in", [⟨"a-2024-01-02.csv", []⟩]),
      ("outF", [⟨"old-2024-01-02.csv", []⟩])], [], [], 0, [], [], []⟩
    [⟨"t", "in", some "outF", []⟩] (by decide) (by decide)).1
